import Mathlib

/-!
Verification of the ComfyKix storefront cart/order logic (src/ComfyKix/script.js).

The script keeps two global arrays, `cart` (line items `{name, price, quantity}`)
and `orders` (completed orders `{orderId, items, total, date}`), and mutates them
from DOM event handlers.  We embed the state-mutating core shallowly: each handler
becomes a pure function on an explicit state, the current time (`Date.now()`) and
the formatted date string (`new Date().toLocaleString()`) become parameters, and
DOM rendering is dropped (it only projects state to markup).
-/

namespace ComfyKix

/-- A cart line item, `{ name, price, quantity }` in script.js (line 2, line 84). -/
structure LineItem where
  name : String
  price : Nat
  quantity : Nat
deriving DecidableEq

/-- The cart is the ordered array `cart` of script.js (line 2). -/
abbrev Cart := List LineItem

/-- A completed order, `{ orderId, items, total, date }` pushed at checkout
(script.js lines 204-209). -/
structure Order where
  orderId : String
  items : List LineItem
  total : Nat
  date : String
deriving DecidableEq

/-- The two global arrays of script.js: `cart` (line 2) and `orders` (line 3). -/
structure StoreState where
  cart : Cart
  orders : List Order
deriving DecidableEq

/-- `addItemToCart(name, price)` (script.js lines 78-88): `findIndex` scans the
array left to right for an entry with the same name; if found its quantity is
incremented, otherwise `{ name, price, quantity: 1 }` is appended.  The
left-to-right scan with in-place increment is expressed recursively. -/
def addItemToCart (name : String) (price : Nat) : Cart → Cart
  | [] => [{ name := name, price := price, quantity := 1 }]
  | item :: rest =>
    if item.name = name then { item with quantity := item.quantity + 1 } :: rest
    else item :: addItemToCart name price rest

/-- The `increase-quantity-btn` branch of `handleCartControlsClick`
(script.js line 181): `cart[index].quantity++`.  An out-of-range index throws in
JS before any mutation, leaving the cart unchanged; we model that as the
identity on the cart. -/
def increaseQuantity : Cart → Nat → Cart
  | [], _ => []
  | item :: rest, 0 => { item with quantity := item.quantity + 1 } :: rest
  | item :: rest, n + 1 => item :: increaseQuantity rest n

/-- The `decrease-quantity-btn` branch of `handleCartControlsClick`
(script.js lines 182-188): if `cart[index].quantity > 1` decrement it,
otherwise `cart.splice(index, 1)` removes the entry. -/
def decreaseQuantity : Cart → Nat → Cart
  | [], _ => []
  | item :: rest, 0 =>
    if item.quantity > 1 then { item with quantity := item.quantity - 1 } :: rest
    else rest
  | item :: rest, n + 1 => item :: decreaseQuantity rest n

/-- The `remove-item-btn` branch of `handleCartControlsClick`
(script.js line 190): `cart.splice(index, 1)`. -/
def removeItem : Cart → Nat → Cart
  | [], _ => []
  | _ :: rest, 0 => rest
  | item :: rest, n + 1 => item :: removeItem rest n

/-- Which control was clicked inside the cart, distinguished in
`handleCartControlsClick` by the button's CSS class (script.js lines 180-191). -/
inductive CartControl where
  | increase
  | decrease
  | remove
deriving DecidableEq

/-- `handleCartControlsClick` (script.js lines 176-193), dispatching on the
clicked button's class with `index = parseInt(target.dataset.index)`. -/
def handleCartControlsClick (control : CartControl) (index : Nat) (cart : Cart) : Cart :=
  match control with
  | .increase => increaseQuantity cart index
  | .decrease => decreaseQuantity cart index
  | .remove => removeItem cart index

/-- The checkout total, `cart.reduce((sum, item) => sum + (item.price * item.quantity), 0)`
(script.js line 201; the same fold renders the cart total at line 65). -/
def cartTotal (cart : Cart) : Nat :=
  cart.foldl (fun sum item => sum + item.price * item.quantity) 0

/-- JS `s.slice(-n)` on a string: the last `n` characters, or all of `s` when it
is shorter than `n` (a negative start index clamps to 0). -/
def sliceLast (s : String) (n : Nat) : String :=
  ⟨s.data.drop (s.data.length - n)⟩

/-- `Date.now().toString().slice(-6)` (script.js line 200): the decimal
representation of the current timestamp truncated to its last 6 characters. -/
def generateOrderId (now : Nat) : String :=
  sliceLast (toString now) 6

/-- `handleBuyAllItemsClick` (script.js lines 198-217): when the cart is
non-empty, build the order id and total, push
`{ orderId, items: [...cart], total, date }` onto `orders`, and clear the cart;
when the cart is empty, do nothing. -/
def handleBuyAllItemsClick (now : Nat) (dateStr : String) (s : StoreState) : StoreState :=
  if s.cart.length > 0 then
    { cart := [],
      orders := s.orders ++
        [{ orderId := generateOrderId now,
           items := s.cart,
           total := cartTotal s.cart,
           date := dateStr }] }
  else s

/-- The lookup inside `trackOrder` (script.js line 128):
`orders.find(order => order.orderId === orderNumber)`, i.e. the first stored
order whose id matches, or `none` (rendered as the "Not Found" message). -/
def findOrder (orderNumber : String) (orders : List Order) : Option Order :=
  orders.find? (fun order => order.orderId = orderNumber)

/-- Outcome of a click on the track-order button: either a lookup result whose
display is scheduled behind the artificial 1.5s delay, or the inline
"Please enter a valid order number." error. -/
inductive TrackerOutcome where
  | scheduled (result : Option Order)
  | inlineError
deriving DecidableEq

/-- JS `String.prototype.trim`: strip leading and trailing whitespace.  Written
on the character list so it evaluates by kernel reduction (Lean's own
`String.trim` is defined by well-founded recursion and does not). -/
def jsTrim (s : String) : String :=
  ⟨((s.data.dropWhile Char.isWhitespace).reverse.dropWhile Char.isWhitespace).reverse⟩

/-- The `trackOrderBtn` click handler (script.js lines 271-279): trim the input;
if it is non-empty call `trackOrder` (which computes the lookup synchronously and
only delays its display), otherwise show the inline error.  The handler never
touches `cart` or `orders`, so the state is returned unchanged on both paths. -/
def trackOrderBtnClick (inputValue : String) (s : StoreState) : StoreState × TrackerOutcome :=
  let orderNumber := jsTrim inputValue
  if orderNumber = "" then (s, .inlineError)
  else (s, .scheduled (findOrder orderNumber s.orders))

/-- The cart invariant: at most one line item per distinct product name, and
every present entry has quantity at least 1. -/
def CartInv (cart : Cart) : Prop :=
  (cart.map LineItem.name).Nodup ∧ ∀ item ∈ cart, 1 ≤ item.quantity

instance (cart : Cart) : Decidable (CartInv cart) := by
  unfold CartInv
  exact inferInstance

/-! ### Helper lemmas -/

theorem cartTotal_foldl (l : Cart) (a : Nat) :
    l.foldl (fun sum item => sum + item.price * item.quantity) a =
      a + (l.map fun item => item.price * item.quantity).sum := by
  induction l generalizing a with
  | nil => simp
  | cons x xs ih =>
    simp only [List.foldl_cons, List.map_cons, List.sum_cons, ih]
    ring

theorem cartTotal_eq_sum (cart : Cart) :
    cartTotal cart = (cart.map fun item => item.price * item.quantity).sum := by
  simpa using cartTotal_foldl cart 0

theorem addItemToCart_found (pre post : Cart) (item : LineItem) (p : Nat)
    (h : item.name ∉ pre.map LineItem.name) :
    addItemToCart item.name p (pre ++ item :: post) =
      pre ++ { item with quantity := item.quantity + 1 } :: post := by
  induction pre with
  | nil => simp [addItemToCart]
  | cons a pre ih =>
    simp only [List.map_cons, List.mem_cons, not_or] at h
    obtain ⟨h1, h2⟩ := h
    simp only [List.cons_append, addItemToCart, List.append_eq]
    rw [if_neg fun e => h1 e.symm, ih h2]

theorem addItemToCart_not_found (cart : Cart) (n : String) (p : Nat)
    (h : n ∉ cart.map LineItem.name) :
    addItemToCart n p cart = cart ++ [{ name := n, price := p, quantity := 1 }] := by
  induction cart with
  | nil => simp [addItemToCart]
  | cons item rest ih =>
    simp only [List.map_cons, List.mem_cons, not_or] at h
    obtain ⟨h1, h2⟩ := h
    simp only [List.cons_append, addItemToCart, List.append_eq]
    rw [if_neg fun e => h1 e.symm, ih h2]

theorem mem_map_name_addItemToCart (cart : Cart) (n : String) (p : Nat) (m : String) :
    m ∈ (addItemToCart n p cart).map LineItem.name ↔
      m ∈ cart.map LineItem.name ∨ m = n := by
  induction cart with
  | nil => simp [addItemToCart]
  | cons item rest ih =>
    by_cases he : item.name = n
    · subst he
      simp [addItemToCart]
      tauto
    · simp only [addItemToCart, if_neg he, List.map_cons, List.mem_cons, ih]
      tauto

theorem CartInv_addItemToCart (cart : Cart) (n : String) (p : Nat) (h : CartInv cart) :
    CartInv (addItemToCart n p cart) := by
  induction cart with
  | nil => exact ⟨by simp [addItemToCart], by simp [addItemToCart]⟩
  | cons item rest ih =>
    obtain ⟨hnd, hq⟩ := h
    simp only [List.map_cons, List.nodup_cons] at hnd
    obtain ⟨hni, hnd2⟩ := hnd
    have hrest : CartInv rest :=
      ⟨hnd2, fun it hit => hq it (List.mem_cons_of_mem _ hit)⟩
    by_cases he : item.name = n
    · refine ⟨?_, ?_⟩
      · simp only [addItemToCart, if_pos he, List.map_cons, List.nodup_cons]
        exact ⟨hni, hnd2⟩
      · intro it hit
        simp only [addItemToCart, if_pos he, List.mem_cons] at hit
        rcases hit with rfl | hit
        · show 1 ≤ item.quantity + 1
          omega
        · exact hq it (List.mem_cons_of_mem _ hit)
    · obtain ⟨ihnd, ihq⟩ := ih hrest
      refine ⟨?_, ?_⟩
      · simp only [addItemToCart, if_neg he, List.map_cons, List.nodup_cons]
        refine ⟨?_, ihnd⟩
        rw [mem_map_name_addItemToCart]
        rintro (hmem | rfl)
        · exact hni hmem
        · exact he rfl
      · intro it hit
        simp only [addItemToCart, if_neg he, List.mem_cons] at hit
        rcases hit with rfl | hit
        · exact hq it (List.mem_cons_self _ _)
        · exact ihq it hit

theorem map_name_increaseQuantity (cart : Cart) (i : Nat) :
    (increaseQuantity cart i).map LineItem.name = cart.map LineItem.name := by
  induction cart generalizing i with
  | nil => simp [increaseQuantity]
  | cons item rest ih =>
    cases i with
    | zero => simp [increaseQuantity]
    | succ n => simp [increaseQuantity, ih]

theorem exists_le_quantity_increaseQuantity (cart : Cart) (i : Nat) (it : LineItem)
    (hit : it ∈ increaseQuantity cart i) :
    ∃ it0 ∈ cart, it0.quantity ≤ it.quantity := by
  induction cart generalizing i with
  | nil => simp [increaseQuantity] at hit
  | cons item rest ih =>
    cases i with
    | zero =>
      simp only [increaseQuantity, List.mem_cons] at hit
      rcases hit with rfl | hit
      · exact ⟨item, List.mem_cons_self _ _, by show item.quantity ≤ item.quantity + 1; omega⟩
      · exact ⟨it, List.mem_cons_of_mem _ hit, le_refl _⟩
    | succ n =>
      simp only [increaseQuantity, List.mem_cons] at hit
      rcases hit with rfl | hit
      · exact ⟨it, List.mem_cons_self _ _, le_refl _⟩
      · obtain ⟨it0, h0, hle⟩ := ih n hit
        exact ⟨it0, List.mem_cons_of_mem _ h0, hle⟩

theorem CartInv_increaseQuantity (cart : Cart) (i : Nat) (h : CartInv cart) :
    CartInv (increaseQuantity cart i) := by
  refine ⟨?_, ?_⟩
  · rw [map_name_increaseQuantity]
    exact h.1
  · intro it hit
    obtain ⟨it0, h0, hle⟩ := exists_le_quantity_increaseQuantity cart i it hit
    exact le_trans (h.2 it0 h0) hle

theorem map_name_decreaseQuantity_sublist (cart : Cart) (i : Nat) :
    List.Sublist ((decreaseQuantity cart i).map LineItem.name) (cart.map LineItem.name) := by
  induction cart generalizing i with
  | nil => simp [decreaseQuantity]
  | cons item rest ih =>
    cases i with
    | zero =>
      by_cases hq : item.quantity > 1
      · simp only [decreaseQuantity, if_pos hq, List.map_cons]
        exact List.Sublist.refl _
      · simp only [decreaseQuantity, if_neg hq, List.map_cons]
        exact List.sublist_cons_self _ _
    | succ n =>
      simp only [decreaseQuantity, List.map_cons]
      exact List.Sublist.cons₂ _ (ih n)

theorem quantity_decreaseQuantity (cart : Cart) (i : Nat)
    (h : ∀ it ∈ cart, 1 ≤ it.quantity) :
    ∀ it ∈ decreaseQuantity cart i, 1 ≤ it.quantity := by
  induction cart generalizing i with
  | nil => simp [decreaseQuantity]
  | cons item rest ih =>
    have hrest : ∀ it ∈ rest, 1 ≤ it.quantity :=
      fun it hit => h it (List.mem_cons_of_mem _ hit)
    cases i with
    | zero =>
      by_cases hq : item.quantity > 1
      · intro it hit
        simp only [decreaseQuantity, if_pos hq, List.mem_cons] at hit
        rcases hit with rfl | hit
        · show 1 ≤ item.quantity - 1
          omega
        · exact hrest it hit
      · intro it hit
        simp only [decreaseQuantity, if_neg hq] at hit
        exact hrest it hit
    | succ n =>
      intro it hit
      simp only [decreaseQuantity, List.mem_cons] at hit
      rcases hit with rfl | hit
      · exact h it (List.mem_cons_self _ _)
      · exact ih n hrest it hit

theorem CartInv_decreaseQuantity (cart : Cart) (i : Nat) (h : CartInv cart) :
    CartInv (decreaseQuantity cart i) :=
  ⟨h.1.sublist (map_name_decreaseQuantity_sublist cart i),
   quantity_decreaseQuantity cart i h.2⟩

theorem removeItem_eq_eraseIdx (cart : Cart) (i : Nat) :
    removeItem cart i = cart.eraseIdx i := by
  induction cart generalizing i with
  | nil => simp [removeItem]
  | cons item rest ih =>
    cases i with
    | zero => simp [removeItem]
    | succ n => simp [removeItem, ih]

theorem CartInv_removeItem (cart : Cart) (i : Nat) (h : CartInv cart) :
    CartInv (removeItem cart i) := by
  rw [removeItem_eq_eraseIdx]
  have hsub : List.Sublist (cart.eraseIdx i) cart := List.eraseIdx_sublist cart i
  exact ⟨h.1.sublist (hsub.map LineItem.name),
    fun it hit => h.2 it (hsub.subset hit)⟩

theorem find?_append_first {α : Type} (p : α → Bool) (pre post : List α) (a : α)
    (hpre : ∀ x ∈ pre, ¬ p x) (ha : p a) :
    (pre ++ a :: post).find? p = some a := by
  induction pre with
  | nil => simp [List.find?_cons_of_pos _ ha]
  | cons x xs ih =>
    have hx := hpre x (List.mem_cons_self _ _)
    simp only [List.cons_append]
    rw [List.find?_cons_of_neg _ (by simpa using hx)]
    exact ih fun y hy => hpre y (List.mem_cons_of_mem _ hy)

/-! ### Claim theorems -/

/-- C1: for every non-empty cart, checkout (`handleBuyAllItemsClick`) appends
exactly one new order to the order store; its items snapshot equals the cart
contents immediately before checkout, its total is the sum of price×quantity
over those pre-checkout entries, and the cart is empty afterwards. -/
theorem checkout_nonempty_appends_one_order (s : StoreState) (now : Nat) (d : String)
    (h : s.cart ≠ []) :
    (handleBuyAllItemsClick now d s).orders =
      s.orders ++
        [{ orderId := generateOrderId now,
           items := s.cart,
           total := (s.cart.map fun item => item.price * item.quantity).sum,
           date := d }] ∧
    (handleBuyAllItemsClick now d s).cart = [] := by
  have hlen : s.cart.length > 0 := List.length_pos.mpr h
  refine ⟨?_, ?_⟩
  · simp [handleBuyAllItemsClick, hlen, cartTotal_eq_sum]
  · simp [handleBuyAllItemsClick, hlen]

theorem checkout_nonempty_appends_one_order_witness :
    ([{ name := "Hoodie", price := 1200, quantity := 2 }] : Cart) ≠ [] ∧
    ((handleBuyAllItemsClick 123456 "d"
        { cart := [{ name := "Hoodie", price := 1200, quantity := 2 }],
          orders := [] }).orders =
      [{ orderId := generateOrderId 123456,
         items := [{ name := "Hoodie", price := 1200, quantity := 2 }],
         total := 2400,
         date := "d" }] ∧
    (handleBuyAllItemsClick 123456 "d"
        { cart := [{ name := "Hoodie", price := 1200, quantity := 2 }],
          orders := [] }).cart = []) :=
  ⟨by decide,
   checkout_nonempty_appends_one_order
     { cart := [{ name := "Hoodie", price := 1200, quantity := 2 }], orders := [] }
     123456 "d" (by decide)⟩

/-- C2: checkout on the empty cart is a no-op: the whole state (in particular
the order store) is unchanged and the cart stays empty. -/
theorem checkout_empty_noop (s : StoreState) (now : Nat) (d : String)
    (h : s.cart = []) :
    handleBuyAllItemsClick now d s = s ∧
    (handleBuyAllItemsClick now d s).orders = s.orders ∧
    (handleBuyAllItemsClick now d s).cart = [] := by
  have he : handleBuyAllItemsClick now d s = s := by
    simp [handleBuyAllItemsClick, h]
  exact ⟨he, by rw [he], by rw [he, h]⟩

theorem checkout_empty_noop_witness :
    (({ cart := [],
        orders := [{ orderId := "111111", items := [], total := 0, date := "x" }] } :
          StoreState).cart = []) ∧
    (handleBuyAllItemsClick 123456 "d"
        { cart := [],
          orders := [{ orderId := "111111", items := [], total := 0, date := "x" }] } =
      { cart := [],
        orders := [{ orderId := "111111", items := [], total := 0, date := "x" }] } ∧
    (handleBuyAllItemsClick 123456 "d"
        { cart := [],
          orders := [{ orderId := "111111", items := [], total := 0, date := "x" }] }).orders =
      [{ orderId := "111111", items := [], total := 0, date := "x" }] ∧
    (handleBuyAllItemsClick 123456 "d"
        { cart := [],
          orders := [{ orderId := "111111", items := [], total := 0, date := "x" }] }).cart = []) :=
  ⟨rfl,
   checkout_empty_noop
     { cart := [],
       orders := [{ orderId := "111111", items := [], total := 0, date := "x" }] }
     123456 "d" rfl⟩

/-- C4: `addItemToCart` merges by name.  If the name is already present (first
occurrence decomposed as `pre ++ item :: post` with no earlier occurrence in
`pre`), the existing entry's quantity is incremented in place and no entry is
appended; if the name is absent, a new line item with quantity 1 is appended
after the existing entries; adding the same name twice to the empty cart yields
a single entry with quantity 2. -/
theorem addItemToCart_merge_by_name (cart pre post : Cart) (item : LineItem)
    (n : String) (p q : Nat) :
    (cart = pre ++ item :: post → item.name = n → n ∉ pre.map LineItem.name →
        addItemToCart n p cart =
          pre ++ { item with quantity := item.quantity + 1 } :: post) ∧
    (n ∉ cart.map LineItem.name →
        addItemToCart n p cart = cart ++ [{ name := n, price := p, quantity := 1 }]) ∧
    addItemToCart n q (addItemToCart n q []) =
      [{ name := n, price := q, quantity := 2 }] := by
  refine ⟨?_, ?_, ?_⟩
  · rintro rfl rfl hpre
    exact addItemToCart_found pre post item p hpre
  · intro hmem
    exact addItemToCart_not_found cart n p hmem
  · simp [addItemToCart]

theorem addItemToCart_merge_by_name_witness :
    addItemToCart "Hoodie" 1200 [{ name := "Hoodie", price := 1200, quantity := 1 }] =
      [{ name := "Hoodie", price := 1200, quantity := 2 }] ∧
    addItemToCart "Socks" 300 [{ name := "Hoodie", price := 1200, quantity := 1 }] =
      [{ name := "Hoodie", price := 1200, quantity := 1 },
       { name := "Socks", price := 300, quantity := 1 }] :=
  ⟨(addItemToCart_merge_by_name [{ name := "Hoodie", price := 1200, quantity := 1 }]
      [] [] { name := "Hoodie", price := 1200, quantity := 1 } "Hoodie" 1200 0).1
      rfl rfl (by decide),
   (addItemToCart_merge_by_name [{ name := "Hoodie", price := 1200, quantity := 1 }]
      [] [] { name := "Hoodie", price := 1200, quantity := 1 } "Socks" 300 0).2.1
      (by decide)⟩

/-- C5: decreasing the quantity at a valid index decrements in place when the
entry's quantity exceeds 1 (the entry persists), and removes the entry entirely
when its quantity is 1. -/
theorem decreaseQuantity_at_index (cart : Cart) (i : Nat) (h : i < cart.length) :
    (1 < cart[i].quantity →
        decreaseQuantity cart i =
          cart.set i { cart[i] with quantity := cart[i].quantity - 1 }) ∧
    (cart[i].quantity = 1 → decreaseQuantity cart i = cart.eraseIdx i) := by
  induction cart generalizing i with
  | nil => simp at h
  | cons item rest ih =>
    cases i with
    | zero =>
      refine ⟨?_, ?_⟩
      · intro hq
        simp only [List.getElem_cons_zero] at hq ⊢
        simp [decreaseQuantity, hq]
      · intro hq
        simp only [List.getElem_cons_zero] at hq ⊢
        simp [decreaseQuantity, hq]
    | succ n =>
      have hn : n < rest.length := by simpa using h
      obtain ⟨h1, h2⟩ := ih n hn
      refine ⟨?_, ?_⟩
      · intro hq
        simp only [List.getElem_cons_succ] at hq ⊢
        simp [decreaseQuantity, h1 hq]
      · intro hq
        simp only [List.getElem_cons_succ] at hq ⊢
        simp [decreaseQuantity, h2 hq]

theorem decreaseQuantity_at_index_witness :
    (0 < ([{ name := "A", price := 5, quantity := 2 },
           { name := "B", price := 3, quantity := 1 }] : Cart).length) ∧
    decreaseQuantity [{ name := "A", price := 5, quantity := 2 },
                      { name := "B", price := 3, quantity := 1 }] 0 =
      [{ name := "A", price := 5, quantity := 1 },
       { name := "B", price := 3, quantity := 1 }] ∧
    decreaseQuantity [{ name := "A", price := 5, quantity := 2 },
                      { name := "B", price := 3, quantity := 1 }] 1 =
      [{ name := "A", price := 5, quantity := 2 }] :=
  ⟨by decide,
   (decreaseQuantity_at_index
      [{ name := "A", price := 5, quantity := 2 },
       { name := "B", price := 3, quantity := 1 }] 0 (by decide)).1 (by decide),
   (decreaseQuantity_at_index
      [{ name := "A", price := 5, quantity := 2 },
       { name := "B", price := 3, quantity := 1 }] 1 (by decide)).2 (by decide)⟩

theorem CartInv_nil : CartInv [] :=
  ⟨List.nodup_nil, by simp⟩

/-- C3: every cart operation — add, the three cart controls (increase,
decrease with its removal branch, remove), and checkout's clearing of the
cart — preserves the invariant that the cart has at most one line item per
distinct product name and every present entry has quantity at least 1; in
particular no entry of an invariant cart has quantity 0. -/
theorem cart_operations_preserve_invariant (cart : Cart) (n : String) (p : Nat)
    (i : Nat) (c : CartControl) (now : Nat) (d : String) (os : List Order)
    (h : CartInv cart) :
    CartInv (addItemToCart n p cart) ∧
    CartInv (handleCartControlsClick c i cart) ∧
    CartInv (handleBuyAllItemsClick now d { cart := cart, orders := os }).cart ∧
    ∀ item ∈ cart, item.quantity ≠ 0 := by
  refine ⟨CartInv_addItemToCart cart n p h, ?_, ?_, ?_⟩
  · cases c with
    | increase => exact CartInv_increaseQuantity cart i h
    | decrease => exact CartInv_decreaseQuantity cart i h
    | remove => exact CartInv_removeItem cart i h
  · by_cases hc : cart.length > 0
    · simp only [handleBuyAllItemsClick]
      rw [if_pos hc]
      exact CartInv_nil
    · simp only [handleBuyAllItemsClick]
      rw [if_neg hc]
      exact h
  · intro item hmem
    have := h.2 item hmem
    omega

theorem cart_operations_preserve_invariant_witness :
    CartInv [{ name := "Hoodie", price := 1200, quantity := 2 }] ∧
    (CartInv (addItemToCart "Socks" 300 [{ name := "Hoodie", price := 1200, quantity := 2 }]) ∧
     CartInv (handleCartControlsClick CartControl.decrease 0
        [{ name := "Hoodie", price := 1200, quantity := 2 }]) ∧
     CartInv (handleBuyAllItemsClick 123456 "d"
        { cart := [{ name := "Hoodie", price := 1200, quantity := 2 }], orders := [] }).cart ∧
     ∀ item ∈ ([{ name := "Hoodie", price := 1200, quantity := 2 }] : Cart),
       item.quantity ≠ 0) :=
  ⟨by decide,
   cart_operations_preserve_invariant
     [{ name := "Hoodie", price := 1200, quantity := 2 }]
     "Socks" 300 0 CartControl.decrease 123456 "d" [] (by decide)⟩

/-- C6 as stated is false at this input: the order store already holds an order
under id "123456", a checkout at timestamp 123456 generates the same id, and
the lookup of the just-generated id returns the older stored order rather than
the just-created order's record. -/
theorem lookup_after_checkout_counterexample :
    generateOrderId 123456 = "123456" ∧
    findOrder "123456"
        (handleBuyAllItemsClick 123456 "d1"
          { cart := [{ name := "Hoodie", price := 1200, quantity := 1 }],
            orders := [{ orderId := "123456", items := [], total := 0, date := "d0" }] }).orders =
      some { orderId := "123456", items := [], total := 0, date := "d0" } ∧
    findOrder "123456"
        (handleBuyAllItemsClick 123456 "d1"
          { cart := [{ name := "Hoodie", price := 1200, quantity := 1 }],
            orders := [{ orderId := "123456", items := [], total := 0, date := "d0" }] }).orders ≠
      some { orderId := "123456",
             items := [{ name := "Hoodie", price := 1200, quantity := 1 }],
             total := 1200, date := "d1" } := by
  refine ⟨by decide, by decide, by decide⟩

/-- C6 (amended): provided no order already in the store carries the generated
id, looking up the id returned by the checkout just performed yields the
just-created order's record verbatim (items, total, date); and looking up any
id that no stored order carries yields the not-found result (`none`) rather
than an exception. -/
theorem lookup_after_checkout (s : StoreState) (now : Nat) (d : String)
    (hne : s.cart ≠ [])
    (hfresh : ∀ o ∈ s.orders, o.orderId ≠ generateOrderId now) :
    findOrder (generateOrderId now) (handleBuyAllItemsClick now d s).orders =
      some { orderId := generateOrderId now, items := s.cart,
             total := cartTotal s.cart, date := d } ∧
    ∀ id0 : String,
      (∀ o ∈ (handleBuyAllItemsClick now d s).orders, o.orderId ≠ id0) →
      findOrder id0 (handleBuyAllItemsClick now d s).orders = none := by
  have hlen : s.cart.length > 0 := List.length_pos.mpr hne
  have horders : (handleBuyAllItemsClick now d s).orders =
      s.orders ++ [{ orderId := generateOrderId now, items := s.cart,
                     total := cartTotal s.cart, date := d }] := by
    simp [handleBuyAllItemsClick, hlen]
  refine ⟨?_, ?_⟩
  · unfold findOrder
    rw [horders]
    exact find?_append_first _ s.orders [] _
      (fun x hx => by simpa using hfresh x hx) (by simp)
  · intro id0 hid
    unfold findOrder
    rw [List.find?_eq_none]
    intro o ho
    simpa using hid o ho

theorem lookup_after_checkout_witness :
    (([{ name := "Hoodie", price := 1200, quantity := 1 }] : Cart) ≠ []) ∧
    (findOrder (generateOrderId 987654)
        (handleBuyAllItemsClick 987654 "dd"
          { cart := [{ name := "Hoodie", price := 1200, quantity := 1 }],
            orders := [] }).orders =
      some { orderId := generateOrderId 987654,
             items := [{ name := "Hoodie", price := 1200, quantity := 1 }],
             total := cartTotal [{ name := "Hoodie", price := 1200, quantity := 1 }],
             date := "dd" } ∧
    ∀ id0 : String,
      (∀ o ∈ (handleBuyAllItemsClick 987654 "dd"
          { cart := [{ name := "Hoodie", price := 1200, quantity := 1 }],
            orders := [] }).orders, o.orderId ≠ id0) →
      findOrder id0 (handleBuyAllItemsClick 987654 "dd"
          { cart := [{ name := "Hoodie", price := 1200, quantity := 1 }],
            orders := [] }).orders = none) :=
  ⟨by decide,
   lookup_after_checkout
     { cart := [{ name := "Hoodie", price := 1200, quantity := 1 }], orders := [] }
     987654 "dd" (by decide) (by simp)⟩

/-- C7: the order id generated by a checkout on a non-empty cart is the decimal
string of the current timestamp truncated to its last 6 characters; it is a
6-character string whenever the timestamp's decimal representation has at least
6 digits; and ids are not guaranteed unique: distinct timestamps can generate
the same id. -/
theorem order_id_last_six_digits (s : StoreState) (now : Nat) (d : String)
    (hne : s.cart ≠ []) :
    (∃ o : Order, (handleBuyAllItemsClick now d s).orders = s.orders ++ [o] ∧
        o.orderId = sliceLast (toString now) 6) ∧
    (6 ≤ (toString now).length → (generateOrderId now).length = 6) ∧
    ∃ n1 n2 : Nat, n1 ≠ n2 ∧ generateOrderId n1 = generateOrderId n2 := by
  have hlen : s.cart.length > 0 := List.length_pos.mpr hne
  refine ⟨?_, ?_, ?_⟩
  · refine ⟨{ orderId := generateOrderId now, items := s.cart,
              total := cartTotal s.cart, date := d }, ?_, rfl⟩
    simp [handleBuyAllItemsClick, hlen]
  · intro h6
    have h6' : 6 ≤ (toString now).data.length := h6
    show (((toString now).data.drop ((toString now).data.length - 6)).length) = 6
    rw [List.length_drop]
    omega
  · exact ⟨1000000, 2000000, by omega, by decide⟩

theorem order_id_last_six_digits_witness :
    (([{ name := "Hoodie", price := 1200, quantity := 1 }] : Cart) ≠ []) ∧
    ((∃ o : Order,
        (handleBuyAllItemsClick 1739577123456 "dd"
          { cart := [{ name := "Hoodie", price := 1200, quantity := 1 }],
            orders := [] }).orders = [] ++ [o] ∧
        o.orderId = sliceLast (toString 1739577123456) 6) ∧
    (6 ≤ (toString 1739577123456).length →
        (generateOrderId 1739577123456).length = 6) ∧
    ∃ n1 n2 : Nat, n1 ≠ n2 ∧ generateOrderId n1 = generateOrderId n2) :=
  ⟨by decide,
   order_id_last_six_digits
     { cart := [{ name := "Hoodie", price := 1200, quantity := 1 }], orders := [] }
     1739577123456 "dd" (by decide)⟩

/-- C8: a track-order submission whose id is empty (after the handler's trim)
produces the inline error outcome and no scheduled lookup, and leaves the cart
and order stores unchanged. -/
theorem trackOrderBtn_empty_input (s : StoreState) (input : String)
    (h : jsTrim input = "") :
    trackOrderBtnClick input s = (s, TrackerOutcome.inlineError) := by
  simp [trackOrderBtnClick, h]

theorem trackOrderBtn_empty_input_witness :
    (jsTrim "" = "") ∧
    trackOrderBtnClick ""
        { cart := [{ name := "Hoodie", price := 1200, quantity := 1 }],
          orders := [{ orderId := "111111", items := [], total := 0, date := "x" }] } =
      ({ cart := [{ name := "Hoodie", price := 1200, quantity := 1 }],
         orders := [{ orderId := "111111", items := [], total := 0, date := "x" }] },
       TrackerOutcome.inlineError) :=
  ⟨rfl,
   trackOrderBtn_empty_input
     { cart := [{ name := "Hoodie", price := 1200, quantity := 1 }],
       orders := [{ orderId := "111111", items := [], total := 0, date := "x" }] }
     "" rfl⟩

/-- C9: adding a name that is already in the cart (first occurrence decomposed
as `pre ++ item :: post`) with any new price argument increments the existing
entry's quantity and keeps the price stored at the first add of that name: the
new price argument `p2` does not appear in the result. -/
theorem addItemToCart_keeps_first_price (pre post : Cart) (item : LineItem)
    (p2 : Nat) (hpre : item.name ∉ pre.map LineItem.name) :
    addItemToCart item.name p2 (pre ++ item :: post) =
      pre ++ { name := item.name, price := item.price,
               quantity := item.quantity + 1 } :: post :=
  addItemToCart_found pre post item p2 hpre

theorem addItemToCart_keeps_first_price_witness :
    ("Hoodie" ∉ ([] : Cart).map LineItem.name) ∧
    addItemToCart "Hoodie" 999 [{ name := "Hoodie", price := 1200, quantity := 1 }] =
      [{ name := "Hoodie", price := 1200, quantity := 2 }] :=
  ⟨by decide,
   addItemToCart_keeps_first_price [] []
     { name := "Hoodie", price := 1200, quantity := 1 } 999 (by decide)⟩

/-- C10: order lookup returns the earliest stored order (first in append order)
whose id equals the queried id; consequently, after two checkouts whose
generated ids collide, looking up that id resolves to the order of the first
checkout — the newer order is never returned. -/
theorem findOrder_earliest_match (orders pre post : List Order) (o : Order)
    (id0 : String) (os : List Order) (c1 c2 : Cart) (now1 now2 : Nat)
    (d1 d2 : String) :
    (orders = pre ++ o :: post → o.orderId = id0 →
        (∀ x ∈ pre, x.orderId ≠ id0) → findOrder id0 orders = some o) ∧
    (c1 ≠ [] → c2 ≠ [] → generateOrderId now1 = generateOrderId now2 →
        (∀ x ∈ os, x.orderId ≠ generateOrderId now2) →
        findOrder (generateOrderId now2)
            (handleBuyAllItemsClick now2 d2
              { cart := c2,
                orders := (handleBuyAllItemsClick now1 d1
                  { cart := c1, orders := os }).orders }).orders =
          some { orderId := generateOrderId now1, items := c1,
                 total := cartTotal c1, date := d1 }) := by
  constructor
  · rintro rfl rfl hpre
    exact find?_append_first _ pre post o
      (fun x hx => by simpa using hpre x hx) (by simp)
  · intro h1 h2 hid hfresh
    have hl1 : c1.length > 0 := List.length_pos.mpr h1
    have hl2 : c2.length > 0 := List.length_pos.mpr h2
    have horders : (handleBuyAllItemsClick now2 d2
        { cart := c2,
          orders := (handleBuyAllItemsClick now1 d1
            { cart := c1, orders := os }).orders }).orders =
        os ++ { orderId := generateOrderId now1, items := c1,
                total := cartTotal c1, date := d1 } ::
          [{ orderId := generateOrderId now2, items := c2,
             total := cartTotal c2, date := d2 }] := by
      simp [handleBuyAllItemsClick, hl1, hl2]
    unfold findOrder
    rw [horders]
    exact find?_append_first _ os _ _
      (fun x hx => by simpa using hfresh x hx) (by simp [hid])

theorem findOrder_earliest_match_witness :
    (([{ name := "A", price := 1, quantity := 1 }] : Cart) ≠ []) ∧
    (([{ name := "B", price := 2, quantity := 1 }] : Cart) ≠ []) ∧
    generateOrderId 1000000 = generateOrderId 2000000 ∧
    findOrder (generateOrderId 2000000)
        (handleBuyAllItemsClick 2000000 "y"
          { cart := [{ name := "B", price := 2, quantity := 1 }],
            orders := (handleBuyAllItemsClick 1000000 "x"
              { cart := [{ name := "A", price := 1, quantity := 1 }],
                orders := [] }).orders }).orders =
      some { orderId := generateOrderId 1000000,
             items := [{ name := "A", price := 1, quantity := 1 }],
             total := cartTotal [{ name := "A", price := 1, quantity := 1 }],
             date := "x" } :=
  ⟨by decide, by decide, by decide,
   (findOrder_earliest_match [] [] [] { orderId := "", items := [], total := 0, date := "" }
      "" [] [{ name := "A", price := 1, quantity := 1 }]
      [{ name := "B", price := 2, quantity := 1 }] 1000000 2000000 "x" "y").2
     (by decide) (by decide) (by decide) (by simp)⟩
